import Mathlib

/-!
Verification development for the scholar_source course-analysis cache
(`backend/cache.py`) and markdown resource parser (`backend/markdown_parser.py`).

The Python code is shallowly embedded: byte strings become `List Nat`,
text becomes `String` / `List Char`, the persistent cache table becomes a
list of entries, wall-clock time becomes a `Nat` of seconds, and the
fallible storage layer becomes an `Except` computation driven by an
explicit fault specification.  SHA-256 is implemented in full so that
hash-dependent facts can be settled by kernel evaluation.
-/

set_option maxRecDepth 100000

set_option maxHeartbeats 1000000

namespace ScholarSource

/-! ## Byte-level utilities and SHA-256 (model of `hashlib.sha256`) -/

/-- Truncate to a 32-bit word. -/
def w32 (n : Nat) : Nat := n % 4294967296

/-- Right rotation of a 32-bit word. -/
def rotr (n x : Nat) : Nat := w32 ((x >>> n) ||| (x <<< (32 - n)))

def bigSigma0 (x : Nat) : Nat := (rotr 2 x ^^^ rotr 13 x) ^^^ rotr 22 x

def bigSigma1 (x : Nat) : Nat := (rotr 6 x ^^^ rotr 11 x) ^^^ rotr 25 x

def smallSigma0 (x : Nat) : Nat := (rotr 7 x ^^^ rotr 18 x) ^^^ (x >>> 3)

def smallSigma1 (x : Nat) : Nat := (rotr 17 x ^^^ rotr 19 x) ^^^ (x >>> 10)

def chFn (x y z : Nat) : Nat := (x &&& y) ^^^ ((x ^^^ 4294967295) &&& z)

def majFn (x y z : Nat) : Nat := ((x &&& y) ^^^ (x &&& z)) ^^^ (y &&& z)

/-- The 64 SHA-256 round constants, written in decimal. -/
def sha256K : List Nat :=
  [1116352408, 1899447441, 3049323471, 3921009573, 961987163,
   1508970993, 2453635748, 2870763221, 3624381080, 310598401,
   607225278, 1426881987, 1925078388, 2162078206, 2614888103,
   3248222580, 3835390401, 4022224774, 264347078, 604807628,
   770255983, 1249150122, 1555081692, 1996064986, 2554220882,
   2821834349, 2952996808, 3210313671, 3336571891, 3584528711,
   113926993, 338241895, 666307205, 773529912, 1294757372,
   1396182291, 1695183700, 1986661051, 2177026350, 2456956037,
   2730485921, 2820302411, 3259730800, 3345764771, 3516065817,
   3600352804, 4094571909, 275423344, 430227734, 506948616,
   659060556, 883997877, 958139571, 1322822218, 1537002063,
   1747873779, 1955562222, 2024104815, 2227730452, 2361852424,
   2428436474, 2756734187, 3204031479, 3329325298]

/-- The eight SHA-256 initial hash words, written in decimal. -/
def sha256H0 : List Nat :=
  [1779033703, 3144134277, 1013904242, 2773480762,
   1359893119, 2600822924, 528734635, 1541459225]

/-- The 8 bytes of the big-endian 64-bit message bit-length. -/
def lenBytes (bits : Nat) : List Nat :=
  [(bits >>> 56) % 256, (bits >>> 48) % 256, (bits >>> 40) % 256,
   (bits >>> 32) % 256, (bits >>> 24) % 256, (bits >>> 16) % 256,
   (bits >>> 8) % 256, bits % 256]

/-- SHA-256 padding: append 0x80, zero bytes to 56 mod 64, then the length. -/
def padMsg (msg : List Nat) : List Nat :=
  let L := msg.length
  let z := (119 - L % 64) % 64
  msg ++ [0x80] ++ List.replicate z 0 ++ lenBytes (8 * L)

/-- Group bytes into big-endian 32-bit words. -/
def toWords : List Nat → List Nat
  | b0 :: b1 :: b2 :: b3 :: rest => (((b0 * 256 + b1) * 256 + b2) * 256 + b3) :: toWords rest
  | _ => []

/-- Split a byte list into 64-byte chunks (fuel-based, structurally recursive). -/
def chunksAux : Nat → List Nat → List (List Nat)
  | 0, _ => []
  | _, [] => []
  | fuel + 1, l => l.take 64 :: chunksAux fuel (l.drop 64)

def chunks64 (l : List Nat) : List (List Nat) := chunksAux (l.length + 1) l

/-- Extend the 16-word schedule to 64 words.  `acc` is kept reversed
(head is the most recent word). -/
def scheduleAux : Nat → List Nat → List Nat
  | 0, acc => acc.reverse
  | fuel + 1, acc =>
    let g := fun (k : Nat) => acc.getD k 0
    scheduleAux fuel (w32 (g 15 + smallSigma0 (g 14) + g 6 + smallSigma1 (g 1)) :: acc)

def schedule (chunk : List Nat) : List Nat :=
  scheduleAux 48 (toWords chunk).reverse

def compressStep (st : List Nat) (wk : Nat × Nat) : List Nat :=
  match st with
  | [a, b, c, d, e, f, g, h] =>
    let t1 := w32 (h + bigSigma1 e + chFn e f g + wk.2 + wk.1)
    let t2 := w32 (bigSigma0 a + majFn a b c)
    [w32 (t1 + t2), a, b, c, w32 (d + t1), e, f, g]
  | _ => st

def compress (h : List Nat) (chunk : List Nat) : List Nat :=
  let fin := (List.zip (schedule chunk) sha256K).foldl compressStep h
  List.zipWith (fun x y => w32 (x + y)) h fin

/-- SHA-256 digest of a byte list, as the list of 8 32-bit words. -/
def sha256Words (msg : List Nat) : List Nat :=
  (chunks64 (padMsg msg)).foldl compress sha256H0

def hexDigitChar (n : Nat) : Char :=
  if n < 10 then Char.ofNat (48 + n) else Char.ofNat (87 + n)

def wordToHex (w : Nat) : List Char :=
  [hexDigitChar ((w >>> 28) % 16), hexDigitChar ((w >>> 24) % 16),
   hexDigitChar ((w >>> 20) % 16), hexDigitChar ((w >>> 16) % 16),
   hexDigitChar ((w >>> 12) % 16), hexDigitChar ((w >>> 8) % 16),
   hexDigitChar ((w >>> 4) % 16), hexDigitChar (w % 16)]

/-- Model of `hashlib.sha256(msg).hexdigest()`. -/
def sha256Hex (msg : List Nat) : String :=
  String.mk ((sha256Words msg).flatMap wordToHex)

/-- UTF-8 encoding of a single character (model of Python `str.encode()`). -/
def utf8EncodeCharNat (c : Char) : List Nat :=
  let n := c.toNat
  if n < 128 then [n]
  else if n < 2048 then [192 ||| (n >>> 6), 128 ||| (n &&& 63)]
  else if n < 65536 then
    [224 ||| (n >>> 12), 128 ||| ((n >>> 6) &&& 63), 128 ||| (n &&& 63)]
  else
    [240 ||| (n >>> 18), 128 ||| ((n >>> 12) &&& 63),
     128 ||| ((n >>> 6) &&& 63), 128 ||| (n &&& 63)]

def utf8Bytes (s : String) : List Nat := s.data.flatMap utf8EncodeCharNat

/-! ## Text utilities shared by the cache and the parser -/

/-- Python's default whitespace set for `str.strip()` / regex `\s` (ASCII part). -/
def pIsSpace (c : Char) : Bool :=
  c = ' ' || c = '\t' || c = '\n' || c = '\r' || c = '\x0b' || c = '\x0c'

/-- `str.strip()` on a character list. -/
def stripChars (s : List Char) : List Char :=
  ((s.dropWhile pIsSpace).reverse.dropWhile pIsSpace).reverse

/-- `str.split(sep)` (single-character separator), Python semantics:
`"".split(',') = [""]`. -/
def splitChars (sep : Char) : List Char → List (List Char)
  | [] => [[]]
  | c :: t =>
    if c = sep then [] :: splitChars sep t
    else
      match splitChars sep t with
      | h :: r => (c :: h) :: r
      | [] => [[c]]

/-- Lexicographic code-point comparison on character lists: the order used by
Python's `sorted` on strings. -/
def lexLe : List Char → List Char → Bool
  | [], _ => true
  | _ :: _, [] => false
  | a :: as, b :: bs =>
    if a.toNat < b.toNat then true
    else if b.toNat < a.toNat then false
    else lexLe as bs

/-- `sorted` on strings (Python's sort is a stable comparison sort; on a linear
order any sorted permutation is unique, so insertion sort is a faithful model). -/
def sortedStrings (l : List String) : List String :=
  List.insertionSort (fun a b => lexLe a.data b.data = true) l

def pstrip (s : String) : String := String.mk (stripChars s.data)

def pySplit (sep : Char) (s : String) : List String :=
  (splitChars sep s.data).map String.mk

/-! ## `backend/cache.py`: data model -/

/-- On-disk state of the two configuration documents; `none` models a missing
file, `some bytes` its raw byte content. -/
structure ConfigState where
  agentsYaml : Option (List Nat)
  tasksYaml : Option (List Nat)
deriving DecidableEq, Repr

/-- The course input parameters relevant to cache identity (the `inputs` dict). -/
structure CacheInputs where
  course_url : Option String := none
  book_url : Option String := none
  book_title : Option String := none
  book_author : Option String := none
  isbn : Option String := none
  topics_list : Option String := none
  desired_resource_types : Option (List String) := none
deriving DecidableEq, Repr

/-- Python truthiness of `inputs.get(field)` for a string field. -/
def optStrTruthy : Option String → Bool
  | none => false
  | some s => s ≠ ""

/-- Python truthiness of `inputs.get('desired_resource_types')` (a list). -/
def optListTruthy : Option (List String) → Bool
  | none => false
  | some l => l ≠ []

/-- `_compute_config_hash`: the byte stream fed to the single SHA-256
accumulator — each document's raw bytes, or its sentinel when missing,
agents document first. -/
def configHashStream (cfg : ConfigState) : List Nat :=
  (match cfg.agentsYaml with
   | some bs => bs
   | none => utf8Bytes "agents.yaml_not_found") ++
  (match cfg.tasksYaml with
   | some bs => bs
   | none => utf8Bytes "tasks.yaml_not_found")

/-- `_compute_config_hash`: hex digest truncated to the first 16 characters. -/
def compute_config_hash (cfg : ConfigState) : String :=
  (sha256Hex (configHashStream cfg)).take 16

/-- Normalized topic entries: `sorted([t.strip() for t in s.split(',') if t.strip()])`
before sorting. -/
def topicEntries (s : String) : List String :=
  ((pySplit ',' s).map pstrip).filter (fun t => t ≠ "")

/-- Normalized resource-type entries:
`[rt.strip() for rt in l if rt.strip()]`. -/
def typeEntries (l : List String) : List String :=
  (l.map pstrip).filter (fun t => t ≠ "")

def topicEntriesOpt : Option String → List String
  | none => []
  | some s => topicEntries s

def typeEntriesOpt : Option (List String) → List String
  | none => []
  | some l => typeEntries l

/-- `if inputs.get('course_url'): key_parts.append(f"course:{...}")`. -/
def coursePart : Option String → List String
  | some u => if u ≠ "" then ["course:" ++ u] else []
  | none => []

def bookUrlPart : Option String → List String
  | some u => if u ≠ "" then ["book_url:" ++ u] else []
  | none => []

/-- `if inputs.get('book_title') and inputs.get('book_author')`. -/
def bookPart : Option String → Option String → List String
  | some t, some a => if t ≠ "" ∧ a ≠ "" then ["book:" ++ t ++ "|" ++ a] else []
  | _, _ => []

def isbnPart : Option String → List String
  | some i => if i ≠ "" then ["isbn:" ++ i] else []
  | none => []

/-- Topics component: appended whenever the raw string is truthy, holding the
sorted normalized entries (note: appended even when every entry is empty). -/
def topicsPart : Option String → List String
  | some s =>
    if s ≠ "" then
      ["topics:" ++ String.intercalate "," (sortedStrings (topicEntries s))]
    else []
  | none => []

/-- Resource-types component: appended only when the raw list is truthy and
the normalized entry list is non-empty. -/
def resourcesPart : Option (List String) → List String
  | some l =>
    if l ≠ [] then
      let resource_types := sortedStrings (typeEntries l)
      if resource_types ≠ [] then
        ["resources:" ++ String.intercalate "," resource_types]
      else []
    else []
  | none => []

/-- `_generate_cache_key`: ordered labeled components, empty fields skipped,
config hash last; the joined string is hashed with full-length SHA-256. -/
def generate_cache_key (inputs : CacheInputs) (config_hash : String) : String :=
  let key_parts :=
    coursePart inputs.course_url ++ bookUrlPart inputs.book_url ++
    bookPart inputs.book_title inputs.book_author ++ isbnPart inputs.isbn ++
    topicsPart inputs.topics_list ++ resourcesPart inputs.desired_resource_types ++
    ["config:" ++ config_hash]
  sha256Hex (utf8Bytes (String.intercalate "|" key_parts))

/-- Replace empty-string / empty-list optional fields by `none`; used to state
that empty components are skipped exactly like absent ones. -/
def clearEmpty (i : CacheInputs) : CacheInputs where
  course_url := if i.course_url = some "" then none else i.course_url
  book_url := if i.book_url = some "" then none else i.book_url
  book_title := if i.book_title = some "" then none else i.book_title
  book_author := if i.book_author = some "" then none else i.book_author
  isbn := if i.isbn = some "" then none else i.isbn
  topics_list := if i.topics_list = some "" then none else i.topics_list
  desired_resource_types :=
    if i.desired_resource_types = some [] then none else i.desired_resource_types

/-- A persisted row of the `course_cache` table.  `cached_at` is modeled as a
Nat of seconds (the ISO-8601 round trip through the store is the identity on
the instant it denotes). -/
structure CacheEntry (α : Type) where
  cache_key : String
  config_hash : String
  cache_type : String
  inputs : CacheInputs
  results : α
  cached_at : Nat
deriving DecidableEq, Repr

abbrev Store (α : Type) := List (CacheEntry α)

/-- TTL configuration, normally read from the environment
(`COURSE_ANALYSIS_TTL_DAYS` default 30, `RESOURCE_RESULTS_TTL_DAYS` default 7;
0 models the falsy "no expiration" setting). -/
structure CacheEnv where
  courseAnalysisTtlDays : Nat := 30
  resourceResultsTtlDays : Nat := 7
deriving DecidableEq, Repr

def ttlDaysFor (env : CacheEnv) (cache_type : String) : Nat :=
  if cache_type = "analysis" then env.courseAnalysisTtlDays
  else env.resourceResultsTtlDays

def secondsPerDay : Nat := 86400

/-- `table.select.eq("cache_key", k)`: all rows with the given key, in table
order. -/
def selectByKey (s : Store α) (k : String) : Store α :=
  s.filter (fun e => e.cache_key == k)

/-- `table.delete.eq("cache_key", k)`: removes every row with the key. -/
def deleteByKey (s : Store α) (k : String) : Store α :=
  s.filter (fun e => !(e.cache_key == k))

/-- `table.upsert(entry, on_conflict="cache_key")`: replace the conflicting
row in place, else append. -/
def upsertByKey (s : Store α) (e : CacheEntry α) : Store α :=
  if s.any (fun x => x.cache_key == e.cache_key) then
    s.map (fun x => if x.cache_key == e.cache_key then e else x)
  else s ++ [e]

/-- Which storage-layer calls raise, modelling connectivity or row errors
inside the `try` blocks. -/
structure FaultSpec where
  clientFails : Bool := false
  selectFails : Bool := false
  deleteFails : Bool := false
  upsertFails : Bool := false
deriving DecidableEq, Repr

def noFaults : FaultSpec := {}

/-- Body of `get_cached_analysis`'s `try` block.  An `error` result carries
the exception message and the store state at the moment of the raise. -/
def getBody (flt : FaultSpec) (env : CacheEnv) (cfg : ConfigState) (now : Nat)
    (store : Store α) (inputs : CacheInputs) (cache_type : String) :
    Except (String × Store α) (Option α × Store α) :=
  if flt.clientFails then .error ("supabase client unavailable", store) else
  let current_config_hash := compute_config_hash cfg
  let cache_key := cache_type ++ ":" ++ generate_cache_key inputs current_config_hash
  if flt.selectFails then .error ("select failed", store) else
  match selectByKey store cache_key with
  | [] => .ok (none, store)
  | cache_entry :: _ =>
    let ttl_days := ttlDaysFor env cache_type
    if ttl_days ≠ 0 ∧ now - cache_entry.cached_at > ttl_days * secondsPerDay then
      if flt.deleteFails then .error ("delete failed", store)
      else .ok (none, deleteByKey store cache_key)
    else if cache_entry.config_hash ≠ current_config_hash then
      if flt.deleteFails then .error ("delete failed", store)
      else .ok (none, deleteByKey store cache_key)
    else .ok (some cache_entry.results, store)

/-- `get_cached_analysis`: force-refresh bypass, then the `try` body with its
catch-all handler (log a warning, return `None`). -/
def get_cached_analysis (flt : FaultSpec) (env : CacheEnv) (cfg : ConfigState)
    (now : Nat) (store : Store α) (inputs : CacheInputs) (cache_type : String)
    (force_refresh : Bool) : Option α × Store α :=
  if force_refresh then (none, store)
  else
    match getBody flt env cfg now store inputs cache_type with
    | .ok r => r
    | .error (_, s) => (none, s)

/-- Body of `set_cached_analysis`'s `try` block. -/
def setBody (flt : FaultSpec) (cfg : ConfigState) (now : Nat)
    (store : Store α) (inputs : CacheInputs) (results : α) (cache_type : String) :
    Except (String × Store α) (Store α) :=
  if flt.clientFails then .error ("supabase client unavailable", store) else
  let current_config_hash := compute_config_hash cfg
  let cache_key := cache_type ++ ":" ++ generate_cache_key inputs current_config_hash
  let cache_data : CacheEntry α :=
    { cache_key, config_hash := current_config_hash, cache_type, inputs,
      results, cached_at := now }
  if flt.upsertFails then .error ("upsert failed", store)
  else .ok (upsertByKey store cache_data)

/-- `set_cached_analysis`: the `try` body with its catch-all handler
(log a warning, keep going). -/
def set_cached_analysis (flt : FaultSpec) (cfg : ConfigState) (now : Nat)
    (store : Store α) (inputs : CacheInputs) (results : α) (cache_type : String) :
    Store α :=
  match setBody flt cfg now store inputs results cache_type with
  | .ok s => s
  | .error (_, s) => s

/-! ## `backend/markdown_parser.py`: scanning primitives

Each Python regex is rendered as a hand-written scanner over `List Char`.
A matcher takes the suffix starting at a candidate position and returns the
captured data (and, where needed, the matched length); `re.search` becomes a
left-to-right scan over suffixes, `re.finditer` a non-overlapping scan. -/

def sl (s : String) : List Char := s.data

def lowerChars (s : List Char) : List Char := s.map Char.toLower

/-- Python's `needle in haystack` substring test. -/
def isSub (needle : List Char) : List Char → Bool
  | [] => needle.isEmpty
  | hay@(_ :: t) => needle.isPrefixOf hay || isSub needle t

def dropPre (pre s : List Char) : Option (List Char) :=
  if pre.isPrefixOf s then some (s.drop pre.length) else none

/-- Case-insensitive literal prefix (`pre` given in lowercase). -/
def stripPreCI (pre s : List Char) : Option (List Char) :=
  if lowerChars (s.take pre.length) = pre then some (s.drop pre.length) else none

def firstSome {β : Type} : List (Option β) → Option β
  | [] => none
  | some b :: _ => some b
  | none :: t => firstSome t

/-- `re.search`: try the matcher at every start position, leftmost wins
(the empty suffix is also tried, as regex search does). -/
def searchSuffix {β : Type} (f : List Char → Option β) : List Char → Option β
  | [] => f []
  | s@(_ :: t) =>
    match f s with
    | some b => some b
    | none => searchSuffix f t

def searchPosFrom {β : Type} (f : List Char → Option β) : Nat → List Char → Option (Nat × β)
  | i, [] => (f []).map (fun b => (i, b))
  | i, s@(_ :: t) =>
    match f s with
    | some b => some (i, b)
    | none => searchPosFrom f (i + 1) t

def searchPos {β : Type} (f : List Char → Option β) (s : List Char) : Option (Nat × β) :=
  searchPosFrom f 0 s

/-- Python's `str.find`: index of the first occurrence of a substring. -/
def findSub (needle hay : List Char) : Option Nat :=
  (searchPos (fun s => if needle.isPrefixOf s then some () else none) hay).map
    (fun p => p.1)

/-- `re.finditer`: non-overlapping matches left to right.  The matcher returns
(captures, matched length); output entries are (start, captures, end). -/
def iterPosAux {β : Type} (f : List Char → Option (β × Nat)) :
    Nat → Nat → List Char → List (Nat × β × Nat)
  | 0, _, _ => []
  | _ + 1, i, [] =>
    match f [] with
    | some (b, len) => [(i, b, i + len)]
    | none => []
  | fuel + 1, i, s@(_ :: t) =>
    match f s with
    | some (b, len) =>
      if len = 0 then (i, b, i) :: iterPosAux f fuel (i + 1) t
      else (i, b, i + len) :: iterPosAux f fuel (i + len) (s.drop len)
    | none => iterPosAux f fuel (i + 1) t

def iterPos {β : Type} (f : List Char → Option (β × Nat)) (s : List Char) :
    List (Nat × β × Nat) :=
  iterPosAux f (s.length + 1) 0 s

/-- `https?://` — returns (matched text in original case, rest). -/
def matchHttpScheme (ci : Bool) (s : List Char) : Option (List Char × List Char) :=
  let norm := fun (l : List Char) => if ci then lowerChars l else l
  if norm (s.take 8) = sl "https://" then some (s.take 8, s.drop 8)
  else if norm (s.take 7) = sl "http://" then some (s.take 7, s.drop 7)
  else none

/-! ## Parser data model -/

/-- A parsed resource dictionary. -/
structure Resource where
  type : List Char
  title : List Char
  source : List Char
  url : List Char
  description : Option (List Char)
deriving DecidableEq, Repr

/-- Textbook metadata; fields are `none` for Python `None` and `some []` for
an empty string. -/
structure TextbookInfo where
  title : Option (List Char)
  author : Option (List Char)
  source : Option (List Char)
deriving DecidableEq, Repr

/-- Result of `parse_markdown_to_resources`. -/
structure ParseResult where
  resources : List Resource
  textbook_info : Option TextbookInfo
deriving DecidableEq, Repr

/-! ## `_contains_error` -/

def error_indicators : List (List Char) :=
  [sl "ERROR:", sl "Could not fetch", sl "failed to", sl "HTTP error", sl "timed out"]

def fieldHasError (f : List Char) : Bool :=
  error_indicators.any (fun ind => isSub (lowerChars ind) (lowerChars f))

/-- `_contains_error(url, title, description)` — `description` may be `None`. -/
def contains_error (url title : List Char) (description : Option (List Char)) : Bool :=
  [url, title, description.getD []].any fieldHasError

/-! ## `_extract_url` -/

/-- After the `]` of `\[.*?\]\((https?://[^\)]+)\)`. -/
def matchInlineLinkAfterBracket : List Char → Option (List Char)
  | '(' :: v =>
    match matchHttpScheme false v with
    | some (sch, w) =>
      let cap := w.takeWhile (fun c => c ≠ ')')
      if cap = [] then none
      else
        match w.dropWhile (fun c => c ≠ ')') with
        | ')' :: _ => some (sch ++ cap)
        | _ => none
    | none => none
  | _ => none

/-- Lazy `.*?` body of the inline-link pattern: `.` does not cross newlines;
each candidate `]` is tried in turn. -/
def scanInlineLinkBody : List Char → Option (List Char)
  | [] => none
  | '\n' :: _ => none
  | c :: t =>
    if c = ']' then
      match matchInlineLinkAfterBracket t with
      | some u => some u
      | none => scanInlineLinkBody t
    else scanInlineLinkBody t

def matchInlineLinkUrl : List Char → Option (List Char)
  | '[' :: t => scanInlineLinkBody t
  | _ => none

/-- `(?:Link|URL|Website):\s*(https?://[^\s\n]+)`, case-insensitive. -/
def matchLabeledUrl (s : List Char) : Option (List Char) :=
  match firstSome [stripPreCI (sl "link:") s, stripPreCI (sl "url:") s,
      stripPreCI (sl "website:") s] with
  | some r =>
    let r1 := r.dropWhile pIsSpace
    match matchHttpScheme true r1 with
    | some (sch, r2) =>
      let cap := r2.takeWhile (fun c => !pIsSpace c)
      if cap = [] then none else some (sch ++ cap)
    | none => none
  | none => none

def plainUrlStop (c : Char) : Bool :=
  pIsSpace c || c = ')' || c = ']' || c = ',' || c = '>'

/-- `https?://[^\s\)\]\,\>]+`. -/
def matchPlainUrl (s : List Char) : Option (List Char) :=
  match matchHttpScheme false s with
  | some (sch, r) =>
    let cap := r.takeWhile (fun c => !plainUrlStop c)
    if cap = [] then none else some (sch ++ cap)
  | none => none

def extract_url (text : List Char) : List Char :=
  match searchSuffix matchInlineLinkUrl text with
  | some u => stripChars u
  | none =>
    match searchSuffix matchLabeledUrl text with
    | some u => stripChars u
    | none =>
      match searchSuffix matchPlainUrl text with
      | some u => stripChars u
      | none => []

/-! ## `_extract_source` -/

/-- `(?:Source|Provider|From):\s*([^\n\-\*]+)`, case-insensitive. -/
def matchSourceLabeled (s : List Char) : Option (List Char) :=
  match firstSome [stripPreCI (sl "source:") s, stripPreCI (sl "provider:") s,
      stripPreCI (sl "from:") s] with
  | some r =>
    let r1 := r.dropWhile pIsSpace
    let cap := r1.takeWhile (fun c => c ≠ '\n' && c ≠ '-' && c ≠ '*')
    if cap = [] then none else some cap
  | none => none

def providerKeywordsParen : List (List Char) :=
  [sl "mit", sl "stanford", sl "openstax", sl "khan", sl "coursera", sl "edx",
   sl "libretexts"]

/-- `\(([^)]*(?:MIT|Stanford|OpenStax|Khan|Coursera|edX|LibreTexts)[^)]*)\)`. -/
def matchSourceParen : List Char → Option (List Char)
  | '(' :: t =>
    let inner := t.takeWhile (fun c => c ≠ ')')
    match t.dropWhile (fun c => c ≠ ')') with
    | ')' :: _ =>
      if providerKeywordsParen.any (fun k => isSub k (lowerChars inner)) then some inner
      else none
    | _ => none
  | _ => none

def providerKeywordsBare : List (List Char) :=
  [sl "mit", sl "stanford", sl "openstax", sl "khan academy", sl "coursera",
   sl "edx", sl "libretexts"]

/-- `(?:MIT|Stanford|OpenStax|Khan Academy|Coursera|edX|LibreTexts)[^\n\-]*`. -/
def matchSourceBare (s : List Char) : Option (List Char) :=
  match firstSome (providerKeywordsBare.map
      (fun k => if (stripPreCI k s).isSome then some k.length else none)) with
  | some n =>
    let cap := (s.drop n).takeWhile (fun c => c ≠ '\n' && c ≠ '-')
    some (s.take n ++ cap)
  | none => none

def extract_source (text : List Char) : List Char :=
  match searchSuffix matchSourceLabeled text with
  | some c => stripChars c
  | none =>
    match searchSuffix matchSourceParen text with
    | some c => stripChars c
    | none =>
      match searchSuffix matchSourceBare text with
      | some c => stripChars c
      | none => []

/-! ## `_extract_description` -/

/-- `(?:What it covers|Description|Best for):\s*([^\n]+)` (case-sensitive). -/
def matchDescLabeled (s : List Char) : Option (List Char) :=
  match firstSome [dropPre (sl "What it covers:") s, dropPre (sl "Description:") s,
      dropPre (sl "Best for:") s] with
  | some r =>
    let cap := (r.dropWhile pIsSpace).takeWhile (fun c => c ≠ '\n')
    if cap = [] then none else some cap
  | none => none

/-- `[-â€¢]\s*([^\n]{30,200})` (the class holds `-` and the three bytes of a
mis-decoded bullet). -/
def matchBulletDesc : List Char → Option (List Char)
  | c :: t =>
    if c = '-' || c = 'â' || c = '€' || c = '¢' then
      let cap := ((t.dropWhile pIsSpace).takeWhile (fun x => x ≠ '\n')).take 200
      if 30 ≤ cap.length then some cap else none
    else none
  | [] => none

def extract_description (text : List Char) : Option (List Char) :=
  match searchSuffix matchDescLabeled text with
  | some c => some (stripChars c)
  | none =>
    match searchSuffix matchBulletDesc text with
    | some c => some (stripChars c)
    | none => none

/-! ## `_extract_title_from_context` -/

def titleStop (c : Char) : Bool := c = '*' || c = '#' || c = '\n'

/-- `(?:\*\*|##)\s*([^\*\#\n]+?)(?:\*\*|##|\n|$)`. -/
def matchCtxTitle (s : List Char) : Option (List Char) :=
  match firstSome [dropPre (sl "**") s, dropPre (sl "##") s] with
  | some r =>
    let r1 := r.dropWhile pIsSpace
    let cap := r1.takeWhile (fun c => !titleStop c)
    if cap = [] then none
    else
      match r1.dropWhile (fun c => !titleStop c) with
      | [] => some cap
      | '\n' :: _ => some cap
      | '*' :: '*' :: _ => some cap
      | '#' :: '#' :: _ => some cap
      | _ => none
  | none => none

/-- `\[([^\]]+)\]`. -/
def matchSqBracketTitle : List Char → Option (List Char)
  | '[' :: t =>
    let cap := t.takeWhile (fun c => c ≠ ']')
    if cap = [] then none
    else
      match t.dropWhile (fun c => c ≠ ']') with
      | ']' :: _ => some cap
      | _ => none
  | _ => none

/-- `before_url = context[:context.find(url)]` — Python slices with `-1` when
the needle is absent, dropping the last character. -/
def extract_title_from_context (context url : List Char) : Option (List Char) :=
  let before := match findSub url context with
    | some i => context.take i
    | none => context.dropLast
  match searchSuffix matchCtxTitle before with
  | some c => some (stripChars c)
  | none =>
    match searchSuffix matchSqBracketTitle before with
    | some c => some (stripChars c)
    | none => none

/-! ## Type inference and normalization -/

/-- Python `str.title()`. -/
def pyTitleAux : Bool → List Char → List Char
  | _, [] => []
  | prevAlpha, c :: t =>
    if c.isAlpha then
      (if prevAlpha then c.toLower else c.toUpper) :: pyTitleAux true t
    else c :: pyTitleAux false t

def pyTitle (s : List Char) : List Char := pyTitleAux false s

def type_map : List (List Char × List Char) :=
  [(sl "open textbook", sl "Textbook"), (sl "textbook", sl "Textbook"),
   (sl "video lecture", sl "Video"), (sl "lecture series", sl "Video"),
   (sl "video", sl "Video"), (sl "youtube", sl "Video"),
   (sl "course notes", sl "Course"), (sl "lecture notes", sl "Notes"),
   (sl "notes", sl "Notes"), (sl "tutorial", sl "Tutorial"),
   (sl "interactive tutorial", sl "Tutorial"), (sl "course", sl "Course"),
   (sl "pdf", sl "PDF"), (sl "website", sl "Website"), (sl "web page", sl "Website")]

def normTypeLoop (type_lower : List Char) : List (List Char × List Char) → Option (List Char)
  | [] => none
  | (k, v) :: rest => if isSub k type_lower then some v else normTypeLoop type_lower rest

def normalize_type (type_str : List Char) : List Char :=
  match normTypeLoop (lowerChars type_str) type_map with
  | some v => v
  | none => pyTitle type_str

def infer_type_from_url (url : List Char) : List Char :=
  let u := lowerChars url
  if isSub (sl "youtube.com") u || isSub (sl "youtu.be") u then sl "Video"
  else if isSub (sl ".pdf") u || isSub (sl "pdf") u then sl "PDF"
  else if isSub (sl "openstax") u || isSub (sl "textbook") u || isSub (sl "book") u then
    sl "Textbook"
  else if isSub (sl "course") u || isSub (sl "lecture") u || isSub (sl "ocw") u ||
      isSub (sl "coursera") u || isSub (sl "edx") u then sl "Course"
  else if isSub (sl "notes") u || isSub (sl "tutorial") u || isSub (sl "guide") u then
    sl "Tutorial"
  else sl "Website"

/-- `(?:Type|Format):\s*([^\n\)\-]+)`, case-insensitive. -/
def matchTypeLabelCtx (s : List Char) : Option (List Char) :=
  match firstSome [stripPreCI (sl "type:") s, stripPreCI (sl "format:") s] with
  | some r =>
    let cap := (r.dropWhile pIsSpace).takeWhile (fun c => c ≠ '\n' && c ≠ ')' && c ≠ '-')
    if cap = [] then none else some cap
  | none => none

def extract_type_from_context (context : List Char) : List Char :=
  match searchSuffix matchTypeLabelCtx context with
  | some c => normalize_type (stripChars c)
  | none => sl "Resource"

/-! ## `_extract_domain` -/

def endsWithChars (suffix s : List Char) : Bool := suffix.reverse.isPrefixOf s.reverse

/-- `https?://(?:www\.)?([^/]+)`. -/
def matchDomain (s : List Char) : Option (List Char) :=
  match matchHttpScheme false s with
  | some (_, r) =>
    let r1 := match dropPre (sl "www.") r with
      | some x => if x.takeWhile (fun c => c ≠ '/') = [] then r else x
      | none => r
    let cap := r1.takeWhile (fun c => c ≠ '/')
    if cap = [] then none else some cap
  | none => none

/-- `re.sub(r'\.(com|org|edu|net|io)$', '', domain)`. -/
def stripTld (d : List Char) : List Char :=
  if endsWithChars (sl ".com") d then d.take (d.length - 4)
  else if endsWithChars (sl ".org") d then d.take (d.length - 4)
  else if endsWithChars (sl ".edu") d then d.take (d.length - 4)
  else if endsWithChars (sl ".net") d then d.take (d.length - 4)
  else if endsWithChars (sl ".io") d then d.take (d.length - 3)
  else d

def extract_domain (url : List Char) : List Char :=
  match searchSuffix matchDomain url with
  | some d => pyTitle (stripTld d)
  | none => sl "Unknown"

/-! ## Strategy 1: `_parse_numbered_resources` -/

/-- `(?:\d+\.?|Resource \d+:?)` after the opening `**`. -/
def matchOrdinal (s : List Char) : Option (List Char) :=
  let ds := s.takeWhile Char.isDigit
  if ds ≠ [] then
    let r := s.dropWhile Char.isDigit
    some (match r with | '.' :: t => t | _ => r)
  else
    match dropPre (sl "Resource ") s with
    | some r =>
      if r.takeWhile Char.isDigit ≠ [] then
        let r2 := r.dropWhile Char.isDigit
        some (match r2 with | ':' :: t => t | _ => r2)
      else none
    | none => none

/-- Optional `(?:\s+\((?:Type:\s*)?([^\)]+)\))?`, with the regex backtracking
that re-captures a literal `Type:` when the shorter parse fails. -/
def matchTypeAnnot (s : List Char) : Option (List Char) × List Char :=
  let sp := s.takeWhile pIsSpace
  if sp = [] then (none, s)
  else
    match s.dropWhile pIsSpace with
    | '(' :: s2 =>
      let tryCap := fun (u : List Char) =>
        let cap := u.takeWhile (fun c => c ≠ ')')
        match cap, u.dropWhile (fun c => c ≠ ')') with
        | [], _ => none
        | c, ')' :: rest => some (c, rest)
        | _, _ => none
      let withType :=
        match dropPre (sl "Type:") s2 with
        | some s3 => tryCap (s3.dropWhile pIsSpace)
        | none => none
      match withType with
      | some (c, rest) => (some c, rest)
      | none =>
        match tryCap s2 with
        | some (c, rest) => (some c, rest)
        | none => (none, s)
    | _ => (none, s)

/-- `\*\*(?:\d+\.?|Resource \d+:?)\s+([^\*]+?)\*\*(?:\s+\((?:Type:\s*)?([^\)]+)\))?`
— yields ((title capture, optional type capture), matched length). -/
def matchResourceHeader (s : List Char) : Option ((List Char × Option (List Char)) × Nat) :=
  match dropPre (sl "**") s with
  | some s1 =>
    match matchOrdinal s1 with
    | some s2 =>
      if s2.takeWhile pIsSpace = [] then none
      else
        let s3 := s2.dropWhile pIsSpace
        let cap := s3.takeWhile (fun c => c ≠ '*')
        if cap = [] then none
        else
          match dropPre (sl "**") (s3.dropWhile (fun c => c ≠ '*')) with
          | some s5 =>
            let (oty, rest) := matchTypeAnnot s5
            some ((cap, oty), s.length - rest.length)
          | none => none
    | none => none
  | none => none

/-- Block delimiter `\*\*(?:\d+\.?|Resource \d+)`. -/
def matchNextHeaderStart (s : List Char) : Option Unit :=
  match dropPre (sl "**") s with
  | some s1 =>
    if s1.takeWhile Char.isDigit ≠ [] then some ()
    else
      match dropPre (sl "Resource ") s1 with
      | some r => if r.takeWhile Char.isDigit ≠ [] then some () else none
      | none => none
  | none => none

/-- `content[start_pos:end_pos]` bounded by the next ordinal marker. -/
def resourceBlockAt (content : List Char) (epos : Nat) : List Char :=
  let tail := content.drop epos
  match searchPos matchNextHeaderStart tail with
  | some (i, _) => tail.take i
  | none => tail

def buildNumbered (content : List Char) :
    List (Nat × (List Char × Option (List Char)) × Nat) → List Resource
  | [] => []
  | (_, (title0, oty), epos) :: rest =>
    let title := stripChars title0
    let resource_type := match oty with
      | some t => stripChars t
      | none => sl "Resource"
    let block := resourceBlockAt content epos
    let url := extract_url block
    let source := extract_source block
    let description := extract_description block
    let rest' := buildNumbered content rest
    if url ≠ [] ∧ contains_error url title description = false then
      { type := normalize_type resource_type, title := title,
        source := if source ≠ [] then source else sl "Unknown",
        url := url, description := description } :: rest'
    else rest'

def parse_numbered_resources (content : List Char) : List Resource :=
  buildNumbered content (iterPos matchResourceHeader content)

/-! ## Strategy 2: `_parse_link_sections` -/

/-- `\[([^\]]+)\]\(([^\)]+)\)` — ((text, url), matched length). -/
def matchMdLink : List Char → Option ((List Char × List Char) × Nat)
  | '[' :: t =>
    let cap1 := t.takeWhile (fun c => c ≠ ']')
    if cap1 = [] then none
    else
      match t.dropWhile (fun c => c ≠ ']') with
      | ']' :: '(' :: u =>
        let cap2 := u.takeWhile (fun c => c ≠ ')')
        if cap2 = [] then none
        else
          match u.dropWhile (fun c => c ≠ ')') with
          | ')' :: _ => some ((cap1, cap2), cap1.length + cap2.length + 4)
          | _ => none
      | _ => none
  | _ => none

def navTitles : List (List Char) := [sl "back to top", sl "top", sl "home"]

def buildLinkSections (content : List Char) :
    List (Nat × (List Char × List Char) × Nat) → List Resource
  | [] => []
  | (spos, (t0, u0), epos) :: rest =>
    let title := stripChars t0
    let url := stripChars u0
    let rest' := buildLinkSections content rest
    if url.head? = some '#' ∨ navTitles.contains (lowerChars title) = true then rest'
    else
      let lo := spos - 200
      let hi := min content.length (epos + 200)
      let context := (content.drop lo).take (hi - lo)
      let source := extract_source context
      let description := extract_description context
      let resource_type :=
        if infer_type_from_url url ≠ [] then infer_type_from_url url
        else extract_type_from_context context
      if contains_error url title description = false then
        { type := resource_type, title := title,
          source := if source ≠ [] then source else sl "Unknown",
          url := url, description := description } :: rest'
      else rest'

def parse_link_sections (content : List Char) : List Resource :=
  buildLinkSections content (iterPos matchMdLink content)

/-! ## Strategy 3: `_parse_all_links` -/

def dedupKeepFirstAux : List (List Char) → List (List Char) → List (List Char)
  | _, [] => []
  | seen, u :: rest =>
    if seen.contains u then dedupKeepFirstAux seen rest
    else u :: dedupKeepFirstAux (u :: seen) rest

def dedupKeepFirst (l : List (List Char)) : List (List Char) := dedupKeepFirstAux [] l

/-- `"title": title or url`. -/
def allLinksTitle (title : Option (List Char)) (url : List Char) : List Char :=
  match title with
  | some t => if t ≠ [] then t else url
  | none => url

def buildAllLinks (content : List Char) : List (List Char) → List Resource
  | [] => []
  | url :: rest =>
    let rest' := buildAllLinks content rest
    let url_pos := (findSub url content).getD 0
    let cs := url_pos - 100
    let ce := min content.length (url_pos + url.length + 100)
    let context := (content.drop cs).take (ce - cs)
    let title := extract_title_from_context context url
    let source := extract_source context
    let resource_type := infer_type_from_url url
    if contains_error url (title.getD []) (some []) = false then
      { type := resource_type,
        title := allLinksTitle title url,
        source := if source ≠ [] then source else extract_domain url,
        url := url, description := none } :: rest'
    else rest'

def parse_all_links (content : List Char) : List Resource :=
  buildAllLinks content
    (dedupKeepFirst ((iterPos (fun s => (matchPlainUrl s).map (fun u => (u, u.length)))
      content).map (fun m => m.2.1)))

/-! ## `_filter_excluded_domains` -/

def excludedDomainsOf (excluded_sites : List Char) : List (List Char) :=
  (((splitChars ',' excluded_sites).map stripChars).filter (fun d => d ≠ [])).map lowerChars

def filterLoop (excluded_domains : List (List Char)) : List Resource → List Resource
  | [] => []
  | r :: rest =>
    let url := lowerChars r.url
    if excluded_domains.any (fun d => isSub d url) then filterLoop excluded_domains rest
    else r :: filterLoop excluded_domains rest

def filter_excluded_domains (resources : List Resource) (excluded_sites : List Char) :
    List Resource :=
  let excluded_domains := excludedDomainsOf excluded_sites
  if excluded_domains = [] then resources
  else filterLoop excluded_domains resources

/-! ## `_extract_textbook_info` -/

/-- Lazy `(.*?)(?=\n#|$)` under DOTALL: capture up to a `\n#` lookahead, the
end of text, or the position just before a final newline. -/
def lazyUntilSectionEnd : List Char → List Char
  | [] => []
  | '\n' :: t =>
    if t = [] then []
    else if t.head? = some '#' then []
    else '\n' :: lazyUntilSectionEnd t
  | c :: t => c :: lazyUntilSectionEnd t

/-- `#+ <heading>[:\n]+(.*?)(?=\n#|$)`, case-insensitive, DOTALL. -/
def matchHeadingSection (heading : List Char) (s : List Char) : Option (List Char) :=
  if s.takeWhile (fun c => c = '#') = [] then none
  else
    match stripPreCI heading (s.dropWhile (fun c => c = '#')) with
    | some r =>
      if r.takeWhile (fun c => c = ':' || c = '\n') = [] then none
      else some (lazyUntilSectionEnd (r.dropWhile (fun c => c = ':' || c = '\n')))
    | none => none

/-- `<label>\s*([^\n]+)`, case-insensitive labels. -/
def matchLabelInline (labels : List (List Char)) (s : List Char) : Option (List Char) :=
  match firstSome (labels.map (fun l => stripPreCI l s)) with
  | some r =>
    let cap := (r.dropWhile pIsSpace).takeWhile (fun c => c ≠ '\n')
    if cap = [] then none else some cap
  | none => none

/-- `<label>\s*\n\s*([^\n]+)`: the whitespace run must contain a newline. -/
def matchLabelNextLine (labels : List (List Char)) (s : List Char) : Option (List Char) :=
  match firstSome (labels.map (fun l => stripPreCI l s)) with
  | some r =>
    if (r.takeWhile pIsSpace).contains '\n' then
      let cap := (r.dropWhile pIsSpace).takeWhile (fun c => c ≠ '\n')
      if cap = [] then none else some cap
    else none
  | none => none

/-- The nine `textbook_patterns`, in source order. -/
def textbookMatchers : List (List Char → Option (List Char)) :=
  [matchHeadingSection (sl " textbook information"),
   matchHeadingSection (sl " course textbook"),
   matchHeadingSection (sl " official textbook"),
   matchLabelInline [sl "**textbook:**"],
   matchLabelInline [sl "**text:**"],
   matchLabelInline [sl "**official textbook:**"],
   matchLabelInline [sl "textbook:", sl "text:"],
   matchLabelNextLine [sl "textbook:", sl "text:"],
   matchLabelNextLine [sl "**textbook:**", sl "**text:**"]]

/-- `re.search(r'(?:Title|Author|Source):', section_text, IGNORECASE)`. -/
def hasTASLabel (s : List Char) : Bool :=
  (searchSuffix (fun t => firstSome [stripPreCI (sl "title:") t,
    stripPreCI (sl "author:") t, stripPreCI (sl "source:") t]) s).isSome

/-- `by\s+([^.\n]+)`, case-insensitive. -/
def matchByAuthor (s : List Char) : Option (List Char) :=
  match stripPreCI (sl "by") s with
  | some r =>
    if r.takeWhile pIsSpace = [] then none
    else
      let cap := (r.dropWhile pIsSpace).takeWhile (fun c => c ≠ '.' && c ≠ '\n')
      if cap = [] then none else some cap
  | none => none

/-- Does the suffix consist exactly of `,\s*\d+(?:st|nd|rd|th)\s+ed\.?,?\s*$`? -/
def matchEditionSuffix : List Char → Bool
  | ',' :: t =>
    let t1 := t.dropWhile pIsSpace
    if t1.takeWhile Char.isDigit = [] then false
    else
      let t2 := t1.dropWhile Char.isDigit
      match firstSome [dropPre (sl "st") t2, dropPre (sl "nd") t2,
          dropPre (sl "rd") t2, dropPre (sl "th") t2] with
      | some t3 =>
        if t3.takeWhile pIsSpace = [] then false
        else
          match dropPre (sl "ed") (t3.dropWhile pIsSpace) with
          | some t4 =>
            let t5 := match t4 with | '.' :: x => x | x => x
            let t6 := match t5 with | ',' :: x => x | x => x
            (t6.dropWhile pIsSpace).isEmpty
          | none => false
      | none => false
  | _ => false

/-- `re.sub(r',\s*\d+(?:st|nd|rd|th)\s+ed\.?,?\s*$', '', title_part)`. -/
def removeEditionSuffix (s : List Char) : List Char :=
  match searchPos (fun t => if matchEditionSuffix t then some () else none) s with
  | some (i, _) => s.take i
  | none => s

def rstripChar (c : Char) (s : List Char) : List Char :=
  (s.reverse.dropWhile (fun x => x = c)).reverse

def joinSep (sep : List Char) : List (List Char) → List Char
  | [] => []
  | [x] => x
  | x :: rest => x ++ sep ++ joinSep sep rest

/-- The simple-comma-format heuristics; `none` only in the unreachable
fewer-than-two-parts case, where control falls through to label extraction. -/
def commaBranch (sec : List Char) : Option TextbookInfo :=
  match searchPos matchByAuthor sec with
  | some (i, authorCap) =>
    let author := stripChars authorCap
    let title_part := stripChars (sec.take i)
    let title := stripChars (removeEditionSuffix title_part)
    some { title := some (rstripChar '.' (rstripChar ',' title)),
           author := some author, source := none }
  | none =>
    match splitChars ',' sec with
    | first0 :: p1 :: prest =>
      let first := stripChars first0
      if first.contains ':' = true ∨ 30 < first.length then
        some { title := some first,
               author := some (rstripChar '.' (joinSep (sl ", ") ((p1 :: prest).map stripChars))),
               source := none }
      else
        some { title := some (rstripChar '.' (joinSep (sl ", ") ((p1 :: prest).map stripChars))),
               author := some first, source := none }
    | _ => none

/-- `(?:\*\*)?<label>[:\s]+\*?\*?([^\n\*]+)`, case-insensitive. -/
def matchFieldLabel (labels : List (List Char)) (s : List Char) : Option (List Char) :=
  let r0 := match dropPre (sl "**") s with
    | some x => x
    | none => s
  match firstSome (labels.map (fun l => stripPreCI l r0)) with
  | some r1 =>
    if r1.takeWhile (fun c => c = ':' || pIsSpace c) = [] then none
    else
      let r2 := match r1.dropWhile (fun c => c = ':' || pIsSpace c) with
        | '*' :: '*' :: x => x
        | '*' :: x => x
        | x => x
      let cap := r2.takeWhile (fun c => c ≠ '\n' && c ≠ '*')
      if cap = [] then none else some cap
  | none => none

def optCharsTruthy : Option (List Char) → Bool
  | none => false
  | some t => t ≠ []

/-- Labeled Title/Author/Source extraction on the section text. -/
def labeledBranch (sec : List Char) : Option TextbookInfo :=
  let title := (searchSuffix (matchFieldLabel [sl "title", sl "book"]) sec).map stripChars
  let author := (searchSuffix (matchFieldLabel [sl "authors", sl "author"]) sec).map stripChars
  let source := (searchSuffix (matchFieldLabel [sl "source"]) sec).map stripChars
  if optCharsTruthy title || optCharsTruthy author then
    some { title := title, author := author, source := source }
  else none

def processSection (sec0 : List Char) : Option TextbookInfo :=
  let sec := stripChars sec0
  if sec.contains ',' = true ∧ hasTASLabel sec = false then
    match commaBranch sec with
    | some r => some r
    | none => labeledBranch sec
  else labeledBranch sec

def extractTbAux (content : List Char) :
    List (List Char → Option (List Char)) → Option TextbookInfo
  | [] => none
  | m :: rest =>
    match searchSuffix m content with
    | some sec =>
      match processSection sec with
      | some r => some r
      | none => extractTbAux content rest
    | none => extractTbAux content rest

def extract_textbook_info (content : List Char) : Option TextbookInfo :=
  extractTbAux content textbookMatchers

/-! ## `parse_markdown_to_resources` -/

def parse_markdown_to_resources (markdown_content : List Char)
    (excluded_sites : Option (List Char)) : ParseResult :=
  let resources := parse_numbered_resources markdown_content
  let resources := if resources ≠ [] then resources
    else parse_link_sections markdown_content
  let resources := if resources ≠ [] then resources
    else parse_all_links markdown_content
  let resources := match excluded_sites with
    | some es => if stripChars es ≠ [] then filter_excluded_domains resources es
      else resources
    | none => resources
  { resources := resources, textbook_info := extract_textbook_info markdown_content }

/-- The entry `set_cached_analysis` builds (its `cache_data` dict). -/
def cacheEntryFor {α : Type} (cfg : ConfigState) (now : Nat) (inputs : CacheInputs)
    (results : α) (cache_type : String) : CacheEntry α :=
  { cache_key := cache_type ++ ":" ++ generate_cache_key inputs (compute_config_hash cfg),
    config_hash := compute_config_hash cfg, cache_type := cache_type,
    inputs := inputs, results := results, cached_at := now }

/-! ## Concrete instances used by counterexamples and witnesses -/

def c5Inputs₁ : CacheInputs := { topics_list := some " " }

def c5Inputs₂ : CacheInputs := { topics_list := some "" }

def c5wInputs₁ : CacheInputs :=
  { course_url := some "https://c", topics_list := some "b, a",
    desired_resource_types := some ["video", " book"] }

def c5wInputs₂ : CacheInputs :=
  { course_url := some "https://c", topics_list := some "a,b",
    desired_resource_types := some ["book", "video "] }

def c6State₁ : ConfigState := { agentsYaml := some [65, 66], tasksYaml := some [67] }

def c6State₂ : ConfigState := { agentsYaml := some [65], tasksYaml := some [66, 67] }

def c4Config : ConfigState := { agentsYaml := none, tasksYaml := none }

def c4Key : String := "analysis" ++ ":" ++ generate_cache_key {} (compute_config_hash c4Config)

/-- An entry stored 0 seconds into the epoch under the current fingerprint. -/
def c4Entry₁ : CacheEntry Nat :=
  { cache_key := c4Key, config_hash := compute_config_hash c4Config,
    cache_type := "analysis", inputs := {}, results := 1, cached_at := 0 }

/-- An entry whose stored fingerprint differs from the current one. -/
def c4Entry₂ : CacheEntry Nat :=
  { cache_key := c4Key, config_hash := "deadbeef",
    cache_type := "analysis", inputs := {}, results := 2, cached_at := 0 }

def c7Faults : FaultSpec := { clientFails := true }

def c7FaultsUp : FaultSpec := { upsertFails := true }

def c2Content : List Char := sl "**1. T**\n- **Link:** https://x.com/a"

def c3Resource : Resource :=
  { type := sl "Resource", title := sl "T", source := sl "Unknown",
    url := sl "https://x.com/a", description := none }

def c9Content : List Char := sl "**1. T**\n- Source: ERROR: zzz\n- **Link:** https://x.com/a"

def c9Resource : Resource :=
  { type := sl "Resource", title := sl "T", source := sl "ERROR: zzz",
    url := sl "https://x.com/a", description := none }

def c8Resources : List Resource :=
  [{ type := sl "Course", title := sl "A", source := sl "MIT",
     url := sl "https://ocw.mit.edu/x", description := none },
   { type := sl "Course", title := sl "B", source := sl "Stanford",
     url := sl "https://stanford.edu/y", description := none }]

/-! ## Theorems: text/sort helper lemmas -/

theorem char_eq_of_toNat_eq {a b : Char} (h : a.toNat = b.toNat) : a = b := by
  have h1 := congrArg Char.ofNat h
  rwa [Char.ofNat_toNat, Char.ofNat_toNat] at h1

theorem lexLe_total : ∀ (a b : List Char), lexLe a b = true ∨ lexLe b a = true
  | [], _ => Or.inl rfl
  | _ :: _, [] => Or.inr rfl
  | a :: as, b :: bs => by
    rcases Nat.lt_trichotomy a.toNat b.toNat with h | h | h
    · exact Or.inl (by simp [lexLe, h])
    · rcases lexLe_total as bs with ih | ih
      · exact Or.inl (by simp [lexLe, h, ih])
      · exact Or.inr (by simp [lexLe, h, ih])
    · exact Or.inr (by simp [lexLe, h])

theorem lexLe_trans : ∀ {a b c : List Char},
    lexLe a b = true → lexLe b c = true → lexLe a c = true
  | [], _, _, _, _ => rfl
  | _ :: _, [], _, h, _ => by simp [lexLe] at h
  | _ :: _, _ :: _, [], _, h => by simp [lexLe] at h
  | a :: as, b :: bs, c :: cs, h1, h2 => by
    simp only [lexLe] at h1 h2 ⊢
    by_cases hab : a.toNat < b.toNat <;> by_cases hbc : b.toNat < c.toNat
    · have hac : a.toNat < c.toNat := by omega
      simp [hac]
    · by_cases hcb : c.toNat < b.toNat
      · simp [hbc, hcb] at h2
      · have hac : a.toNat < c.toNat := by omega
        simp [hac]
    · by_cases hba : b.toNat < a.toNat
      · simp [hab, hba] at h1
      · have hac : a.toNat < c.toNat := by omega
        simp [hac]
    · by_cases hba : b.toNat < a.toNat
      · simp [hab, hba] at h1
      · by_cases hcb : c.toNat < b.toNat
        · simp [hbc, hcb] at h2
        · have hab' : a.toNat = b.toNat := by omega
          have hbc' : b.toNat = c.toNat := by omega
          have hac1 : ¬ a.toNat < c.toNat := by omega
          have hac2 : ¬ c.toNat < a.toNat := by omega
          simp only [hab', lt_self_iff_false, if_false] at h1
          simp only [hbc', lt_self_iff_false, if_false] at h2
          simp only [hac1, hac2, if_false]
          exact lexLe_trans h1 h2

theorem lexLe_antisymm : ∀ {a b : List Char},
    lexLe a b = true → lexLe b a = true → a = b
  | [], [], _, _ => rfl
  | [], _ :: _, _, h => by simp [lexLe] at h
  | _ :: _, [], h, _ => by simp [lexLe] at h
  | a :: as, b :: bs, h1, h2 => by
    simp only [lexLe] at h1 h2
    rcases Nat.lt_trichotomy a.toNat b.toNat with hab | hab | hab
    · have hba : ¬ b.toNat < a.toNat := by omega
      simp [hab, hba] at h2
    · have : as = bs := by
        simp only [hab, lt_self_iff_false, if_false] at h1 h2
        exact lexLe_antisymm h1 h2
      rw [char_eq_of_toNat_eq hab, this]
    · have hba : ¬ a.toNat < b.toNat := by omega
      simp [hab, hba] at h1

theorem sortedStrings_congr {l₁ l₂ : List String} (h : l₁.Perm l₂) :
    sortedStrings l₁ = sortedStrings l₂ := by
  haveI ht : IsTotal String (fun a b => lexLe a.data b.data = true) :=
    ⟨fun a b => lexLe_total a.data b.data⟩
  haveI htr : IsTrans String (fun a b => lexLe a.data b.data = true) :=
    ⟨fun _ _ _ h1 h2 => lexLe_trans h1 h2⟩
  haveI has : IsAntisymm String (fun a b => lexLe a.data b.data = true) :=
    ⟨fun a b h1 h2 => by
      have hd := lexLe_antisymm h1 h2
      cases a; cases b; exact congrArg String.mk hd⟩
  exact List.eq_of_perm_of_sorted
    (((List.perm_insertionSort _ l₁).trans h).trans (List.perm_insertionSort _ l₂).symm)
    (List.sorted_insertionSort _ l₁) (List.sorted_insertionSort _ l₂)

theorem sortedStrings_perm (l : List String) : (sortedStrings l).Perm l :=
  List.perm_insertionSort _ l

theorem sortedStrings_nil : sortedStrings [] = [] := rfl

theorem sortedStrings_ne_nil {l : List String} (h : l ≠ []) : sortedStrings l ≠ [] := by
  intro hc
  have hp := sortedStrings_perm l
  rw [hc] at hp
  exact h hp.symm.eq_nil

/-! ## Theorems: cache-key component congruence -/

theorem topicsPart_congr {o₁ o₂ : Option String}
    (ht : optStrTruthy o₁ = optStrTruthy o₂)
    (hp : (topicEntriesOpt o₁).Perm (topicEntriesOpt o₂)) :
    topicsPart o₁ = topicsPart o₂ := by
  rcases o₁ with _ | s₁ <;> rcases o₂ with _ | s₂ <;>
    simp only [optStrTruthy, topicEntriesOpt] at ht hp
  · rfl
  · have h2 : s₂ = "" := by by_contra hc; simp [hc] at ht
    simp [topicsPart, h2]
  · have h1 : s₁ = "" := by by_contra hc; simp [hc] at ht
    simp [topicsPart, h1]
  · by_cases h1 : s₁ = ""
    · have h2 : s₂ = "" := by
        subst h1; by_contra hc; simp [hc] at ht
      simp [topicsPart, h1, h2]
    · have h2 : s₂ ≠ "" := by
        intro hc; subst hc; simp [h1] at ht
      simp only [topicsPart, if_pos h1, if_pos h2]
      rw [sortedStrings_congr hp]

theorem resourcesPart_eq (o : Option (List String)) :
    resourcesPart o =
      if typeEntriesOpt o = [] then []
      else ["resources:" ++ String.intercalate "," (sortedStrings (typeEntriesOpt o))] := by
  rcases o with _ | l
  · rfl
  · simp only [resourcesPart, typeEntriesOpt]
    by_cases hl : l = []
    · subst hl; simp [typeEntries]
    · simp only [hl, ne_eq, not_false_eq_true, if_true]
      by_cases he : typeEntries l = []
      · rw [he]; simp [sortedStrings_nil]
      · simp [he, sortedStrings_ne_nil he]

theorem resourcesPart_congr {o₁ o₂ : Option (List String)}
    (hp : (typeEntriesOpt o₁).Perm (typeEntriesOpt o₂)) :
    resourcesPart o₁ = resourcesPart o₂ := by
  rw [resourcesPart_eq, resourcesPart_eq]
  by_cases h : typeEntriesOpt o₁ = []
  · have h2 : typeEntriesOpt o₂ = [] := ((h ▸ hp) : ([] : List String).Perm _).symm.eq_nil
    simp [h, h2]
  · have h2 : typeEntriesOpt o₂ ≠ [] := fun hc => h ((hc ▸ hp.symm) : ([] : List String).Perm _).symm.eq_nil
    simp only [h, h2, if_neg, if_false]
    rw [sortedStrings_congr hp]

theorem coursePart_clear (o : Option String) :
    coursePart (if o = some "" then none else o) = coursePart o := by
  split
  · next he => rw [he]; simp [coursePart]
  · rfl

theorem bookUrlPart_clear (o : Option String) :
    bookUrlPart (if o = some "" then none else o) = bookUrlPart o := by
  split
  · next he => rw [he]; simp [bookUrlPart]
  · rfl

theorem isbnPart_clear (o : Option String) :
    isbnPart (if o = some "" then none else o) = isbnPart o := by
  split
  · next he => rw [he]; simp [isbnPart]
  · rfl

theorem topicsPart_clear (o : Option String) :
    topicsPart (if o = some "" then none else o) = topicsPart o := by
  split
  · next he => rw [he]; simp [topicsPart]
  · rfl

theorem resourcesPart_clear (o : Option (List String)) :
    resourcesPart (if o = some [] then none else o) = resourcesPart o := by
  split
  · next he => rw [he]; simp [resourcesPart]
  · rfl

theorem bookPart_clear (t a : Option String) :
    bookPart (if t = some "" then none else t) (if a = some "" then none else a) =
      bookPart t a := by
  rcases t with _ | t₀
  · simp [bookPart]
  · rcases a with _ | a₀
    · by_cases h : t₀ = "" <;> simp [h, bookPart]
    · by_cases h1 : t₀ = "" <;> by_cases h2 : a₀ = "" <;> simp [h1, h2, bookPart]

/-! ## Claim C5 (corrected): cache-key determinism and normalization -/

/-- C5 counterexample: the claim as stated fails.  The two input sets differ
only in incidental whitespace around the (single, empty) topics entry —
splitting and trimming the two topics strings yields literally identical entry
lists — yet the generated keys differ, because `" "` is truthy and appends a
dangling `topics:` component while `""` is falsy and appends none. -/
theorem cache_key_whitespace_counterexample :
    ((pySplit ',' " ").map pstrip = (pySplit ',' "").map pstrip
      ∧ c5Inputs₁.course_url = c5Inputs₂.course_url
      ∧ c5Inputs₁.book_url = c5Inputs₂.book_url
      ∧ c5Inputs₁.book_title = c5Inputs₂.book_title
      ∧ c5Inputs₁.book_author = c5Inputs₂.book_author
      ∧ c5Inputs₁.isbn = c5Inputs₂.isbn
      ∧ c5Inputs₁.desired_resource_types = c5Inputs₂.desired_resource_types
      ∧ c5Inputs₁.topics_list = some " " ∧ c5Inputs₂.topics_list = some "")
    ∧ generate_cache_key c5Inputs₁ "" ≠ generate_cache_key c5Inputs₂ "" :=
  ⟨by decide, by decide⟩

/-- C5 (amended): for input sets whose non-list fields agree, whose topics
strings have the same truthiness, and whose normalized (trimmed, non-empty)
topic and resource-type entry lists agree up to permutation,
`_generate_cache_key` produces byte-identical keys; and a component whose
source field is absent or empty is skipped (replacing empty fields by absent
ones leaves the key unchanged). -/
theorem cache_key_normalization :
    (∀ (i₁ i₂ : CacheInputs) (h : String),
      i₁.course_url = i₂.course_url → i₁.book_url = i₂.book_url →
      i₁.book_title = i₂.book_title → i₁.book_author = i₂.book_author →
      i₁.isbn = i₂.isbn →
      optStrTruthy i₁.topics_list = optStrTruthy i₂.topics_list →
      (topicEntriesOpt i₁.topics_list).Perm (topicEntriesOpt i₂.topics_list) →
      (typeEntriesOpt i₁.desired_resource_types).Perm
        (typeEntriesOpt i₂.desired_resource_types) →
      generate_cache_key i₁ h = generate_cache_key i₂ h)
    ∧ (∀ (i : CacheInputs) (h : String),
      generate_cache_key (clearEmpty i) h = generate_cache_key i h) := by
  constructor
  · intro i₁ i₂ h hc hb ht ha hi htr htop hres
    unfold generate_cache_key
    rw [hc, hb, ht, ha, hi, topicsPart_congr htr htop, resourcesPart_congr hres]
  · intro i h
    unfold generate_cache_key
    simp only [clearEmpty]
    rw [coursePart_clear, bookUrlPart_clear, bookPart_clear, isbnPart_clear,
      topicsPart_clear, resourcesPart_clear]

theorem cache_key_normalization_witness :
    (optStrTruthy c5wInputs₁.topics_list = optStrTruthy c5wInputs₂.topics_list)
    ∧ (topicEntriesOpt c5wInputs₁.topics_list).Perm (topicEntriesOpt c5wInputs₂.topics_list)
    ∧ generate_cache_key c5wInputs₁ "abcd" = generate_cache_key c5wInputs₂ "abcd"
    ∧ generate_cache_key (clearEmpty c5wInputs₁) "abcd" = generate_cache_key c5wInputs₁ "abcd" :=
  ⟨by decide, by decide,
    cache_key_normalization.1 c5wInputs₁ c5wInputs₂ "abcd" rfl rfl rfl rfl rfl
      (by decide) (by decide) (by decide),
    cache_key_normalization.2 c5wInputs₁ "abcd"⟩

/-! ## Claim C6 (corrected): config-fingerprint identity -/

/-- C6 counterexample: the "equal fingerprints only if byte-identical
documents" direction fails.  The two configuration states differ (the byte
`66` sits at the end of the agents document in one and at the start of the
tasks document in the other), yet the unseparated concatenation fed to the
hash accumulator is the same byte stream, so the fingerprints coincide. -/
theorem config_hash_collision_counterexample :
    compute_config_hash c6State₁ = compute_config_hash c6State₂ ∧ c6State₁ ≠ c6State₂ :=
  ⟨rfl, by decide⟩

/-- C6 (amended): byte-identical document states always yield equal
fingerprints; a missing document contributes a distinguishing sentinel byte
sequence so that a missing document and an empty document produce different
fingerprints; and the function is total (never raises).  Equal fingerprints do
not, however, imply byte-identical documents. -/
theorem config_hash_amended :
    (∀ c₁ c₂ : ConfigState, c₁ = c₂ → compute_config_hash c₁ = compute_config_hash c₂)
    ∧ compute_config_hash { agentsYaml := none, tasksYaml := some [] } ≠
        compute_config_hash { agentsYaml := some [], tasksYaml := some [] } :=
  ⟨fun _ _ h => by rw [h], by decide⟩

theorem config_hash_amended_witness :
    compute_config_hash { agentsYaml := none, tasksYaml := none } =
      compute_config_hash { agentsYaml := none, tasksYaml := none } :=
  config_hash_amended.1 _ _ rfl

/-! ## Theorems: store-operation lemmas -/

theorem filter_map_upsert {α : Type} (e : CacheEntry α) :
    ∀ s : Store α, s.any (fun x => x.cache_key == e.cache_key) = true →
      ∃ tl, (s.map (fun x => if x.cache_key == e.cache_key then e else x)).filter
        (fun x => x.cache_key == e.cache_key) = e :: tl
  | [], h => by simp at h
  | a :: t, h => by
    by_cases ha : (a.cache_key == e.cache_key) = true
    · have ha' : a.cache_key = e.cache_key := eq_of_beq ha
      exact ⟨(t.map (fun x => if x.cache_key == e.cache_key then e else x)).filter
        (fun x => x.cache_key == e.cache_key),
        by simp [List.map_cons, List.filter_cons, ha']⟩
    · have hfa : (a.cache_key == e.cache_key) = false := by
        cases hb : (a.cache_key == e.cache_key) with
        | true => exact absurd hb ha
        | false => rfl
      simp only [List.any_cons, Bool.or_eq_true] at h
      rcases h with h | h
      · exact absurd h ha
      · obtain ⟨tl, htl⟩ := filter_map_upsert e t h
        refine ⟨tl, ?_⟩
        rw [List.map_cons, if_neg ha, List.filter_cons]
        simp only [hfa, Bool.false_eq_true, if_false]
        exact htl

theorem selectByKey_upsert_self {α : Type} (s : Store α) (e : CacheEntry α) :
    ∃ tl, selectByKey (upsertByKey s e) e.cache_key = e :: tl := by
  unfold upsertByKey selectByKey
  by_cases h : s.any (fun x => x.cache_key == e.cache_key) = true
  · rw [if_pos h]
    exact filter_map_upsert e s h
  · rw [if_neg h]
    have hf : s.filter (fun x => x.cache_key == e.cache_key) = [] := by
      rw [List.filter_eq_nil_iff]
      intro a ha hc
      exact h (List.any_eq_true.mpr ⟨a, ha, hc⟩)
    exact ⟨[], by simp [List.filter_append, hf]⟩

theorem getBody_error_store {α : Type} {flt : FaultSpec} {env : CacheEnv}
    {cfg : ConfigState} {now : Nat} {store : Store α} {inputs : CacheInputs}
    {cache_type msg : String} {s : Store α}
    (h : getBody flt env cfg now store inputs cache_type = .error (msg, s)) :
    s = store := by
  simp only [getBody] at h
  rcases hsel : selectByKey store
      (cache_type ++ ":" ++ generate_cache_key inputs (compute_config_hash cfg))
    with _ | ⟨ce, tail⟩ <;> rw [hsel] at h <;> repeat' split at h
  all_goals simp_all

theorem setBody_error_store {α : Type} {flt : FaultSpec} {cfg : ConfigState}
    {now : Nat} {store : Store α} {inputs : CacheInputs} {results : α}
    {cache_type msg : String} {s : Store α}
    (h : setBody flt cfg now store inputs results cache_type = .error (msg, s)) :
    s = store := by
  simp only [setBody] at h
  repeat' split at h
  all_goals simp_all

/-! ## Claim C1 (confirmed): cache round-trip -/

/-- C1: storing a payload and reading it back under the same configuration
state, within the TTL for the cache type, with `force_refresh = false` and a
healthy storage layer, returns exactly the stored payload. -/
theorem cache_round_trip {α : Type} (env : CacheEnv) (cfg : ConfigState)
    (store : Store α) (inputs : CacheInputs) (R : α) (cache_type : String)
    (t₁ t₂ : Nat)
    (hage : t₂ - t₁ ≤ ttlDaysFor env cache_type * secondsPerDay) :
    (get_cached_analysis noFaults env cfg t₂
        (set_cached_analysis noFaults cfg t₁ store inputs R cache_type)
        inputs cache_type false).1 = some R := by
  obtain ⟨tl, hsel⟩ := selectByKey_upsert_self store (cacheEntryFor cfg t₁ inputs R cache_type)
  have hkey : (cacheEntryFor cfg t₁ inputs R cache_type).cache_key =
      cache_type ++ ":" ++ generate_cache_key inputs (compute_config_hash cfg) := rfl
  rw [hkey] at hsel
  have hset : set_cached_analysis noFaults cfg t₁ store inputs R cache_type =
      upsertByKey store (cacheEntryFor cfg t₁ inputs R cache_type) := rfl
  have httl : ¬ (ttlDaysFor env cache_type ≠ 0 ∧
      t₂ - t₁ > ttlDaysFor env cache_type * secondsPerDay) :=
    fun hc => absurd hc.2 (Nat.not_lt.mpr hage)
  rw [hset]
  simp only [get_cached_analysis, getBody, noFaults, Bool.false_eq_true, if_false]
  rw [hsel]
  simp [cacheEntryFor, httl]

theorem cache_round_trip_witness :
    (get_cached_analysis noFaults {} c4Config 86400
        (set_cached_analysis noFaults c4Config 0 ([] : Store Nat) {} 42 "analysis")
        {} "analysis" false).1 = some 42 :=
  cache_round_trip {} c4Config [] {} 42 "analysis" 0 86400 (by decide)

/-! ## Claim C4 (confirmed): stale-entry handling of `get_cached_analysis` -/

/-- C4: when the first stored entry under the computed key is expired, or is
within TTL but carries a fingerprint different from the currently computed
one, `get` returns `None` and deletes the entry from the store. -/
theorem cache_stale_invalidation {α : Type} (env : CacheEnv) (cfg : ConfigState)
    (now : Nat) (store : Store α) (inputs : CacheInputs) (cache_type : String)
    (e : CacheEntry α) (tl : Store α)
    (hsel : selectByKey store
        (cache_type ++ ":" ++ generate_cache_key inputs (compute_config_hash cfg)) =
        e :: tl) :
    (ttlDaysFor env cache_type ≠ 0 →
      now - e.cached_at > ttlDaysFor env cache_type * secondsPerDay →
      get_cached_analysis noFaults env cfg now store inputs cache_type false =
        (none, deleteByKey store
          (cache_type ++ ":" ++ generate_cache_key inputs (compute_config_hash cfg))))
    ∧ (¬ (ttlDaysFor env cache_type ≠ 0 ∧
          now - e.cached_at > ttlDaysFor env cache_type * secondsPerDay) →
      e.config_hash ≠ compute_config_hash cfg →
      get_cached_analysis noFaults env cfg now store inputs cache_type false =
        (none, deleteByKey store
          (cache_type ++ ":" ++ generate_cache_key inputs (compute_config_hash cfg)))) := by
  constructor
  · intro h1 h2
    simp only [get_cached_analysis, getBody, noFaults, Bool.false_eq_true, if_false]
    rw [hsel]
    simp [h1, h2]
  · intro h1 h2
    simp only [get_cached_analysis, getBody, noFaults, Bool.false_eq_true, if_false]
    rw [hsel]
    simp [h1, h2]

theorem cache_stale_invalidation_witness :
    (get_cached_analysis noFaults {} c4Config 2592001 [c4Entry₁] {} "analysis" false =
      (none, deleteByKey [c4Entry₁] c4Key))
    ∧ (get_cached_analysis noFaults {} c4Config 0 [c4Entry₂] {} "analysis" false =
      (none, deleteByKey [c4Entry₂] c4Key)) :=
  ⟨(cache_stale_invalidation {} c4Config 2592001 [c4Entry₁] {} "analysis" c4Entry₁ []
      (by simp [selectByKey, c4Entry₁, c4Key])).1 (by decide) (by decide),
   (cache_stale_invalidation {} c4Config 0 [c4Entry₂] {} "analysis" c4Entry₂ []
      (by simp [selectByKey, c4Entry₂, c4Key])).2 (by decide) (by decide)⟩

/-! ## Claim C7 (confirmed): fail-open cache operations -/

/-- C7: the public operations are total (the embedded `try` bodies are wrapped
in catch-all handlers); whenever a storage-layer call raises inside `get`, the
operation returns `None` with the store unchanged (a miss), and whenever one
raises inside `set`, the store is left unchanged (a no-op). -/
theorem cache_fail_open {α : Type} (flt : FaultSpec) (env : CacheEnv)
    (cfg : ConfigState) (now : Nat) (store : Store α) (inputs : CacheInputs)
    (results : α) (cache_type : String) (force_refresh : Bool) :
    (∀ msg s, getBody flt env cfg now store inputs cache_type = .error (msg, s) →
      get_cached_analysis flt env cfg now store inputs cache_type force_refresh =
        (none, store))
    ∧ (∀ msg s, setBody flt cfg now store inputs results cache_type = .error (msg, s) →
      set_cached_analysis flt cfg now store inputs results cache_type = store) := by
  constructor
  · intro msg s h
    unfold get_cached_analysis
    cases force_refresh with
    | true => simp
    | false =>
      simp only [Bool.false_eq_true, if_false]
      rw [h, getBody_error_store h]
  · intro msg s h
    unfold set_cached_analysis
    rw [h, setBody_error_store h]

theorem cache_fail_open_witness :
    (get_cached_analysis c7Faults {} c4Config 0 ([] : Store Nat) {} "analysis" false =
      (none, []))
    ∧ (set_cached_analysis c7FaultsUp c4Config 0 ([] : Store Nat) {} 5 "analysis" = []) :=
  ⟨(cache_fail_open c7Faults {} c4Config 0 [] {} 5 "analysis" false).1
      "supabase client unavailable" [] rfl,
   (cache_fail_open c7FaultsUp {} c4Config 0 [] {} 5 "analysis" false).2
      "upsert failed" [] rfl⟩

/-! ## Theorems: parser helper lemmas -/

theorem splitChars_ne_nil (sep : Char) : ∀ l : List Char, splitChars sep l ≠ []
  | [] => by simp [splitChars]
  | c :: t => by
    simp only [splitChars]
    split
    · simp
    · split <;> simp

theorem mem_of_mem_splitChars {sep : Char} :
    ∀ {l p : List Char}, p ∈ splitChars sep l → ∀ {c : Char}, c ∈ p → c ∈ l := by
  intro l
  induction l with
  | nil =>
    intro p hp c hc
    simp only [splitChars, List.mem_singleton] at hp
    subst hp
    simp at hc
  | cons c₀ t ih =>
    intro p hp c hc
    simp only [splitChars] at hp
    by_cases hcs : c₀ = sep
    · rw [if_pos hcs] at hp
      rcases List.mem_cons.mp hp with hp | hp
      · subst hp; simp at hc
      · exact List.mem_cons_of_mem c₀ (ih hp hc)
    · rw [if_neg hcs] at hp
      rcases hsp : splitChars sep t with _ | ⟨h₀, r⟩
      · exact absurd hsp (splitChars_ne_nil sep t)
      · rw [hsp] at hp
        rcases List.mem_cons.mp hp with hp | hp
        · subst hp
          rcases List.mem_cons.mp hc with hc | hc
          · subst hc; exact List.mem_cons_self _ _
          · exact List.mem_cons_of_mem c₀ (ih (hsp ▸ List.mem_cons_self h₀ r) hc)
        · exact List.mem_cons_of_mem c₀ (ih (hsp ▸ List.mem_cons_of_mem h₀ hp) hc)

theorem all_space_of_stripChars_eq_nil {l : List Char} (h : stripChars l = []) :
    ∀ c ∈ l, pIsSpace c = true := by
  unfold stripChars at h
  rw [List.reverse_eq_nil_iff, List.dropWhile_eq_nil_iff] at h
  intro c hc
  have hsplit : l.takeWhile pIsSpace ++ l.dropWhile pIsSpace = l :=
    List.takeWhile_append_dropWhile pIsSpace l
  rw [← hsplit] at hc
  rcases List.mem_append.mp hc with hc | hc
  · exact List.mem_takeWhile_imp hc
  · exact h c (List.mem_reverse.mpr hc)

theorem stripChars_eq_nil_of_all_space {l : List Char}
    (h : ∀ c ∈ l, pIsSpace c = true) : stripChars l = [] := by
  unfold stripChars
  rw [List.reverse_eq_nil_iff, List.dropWhile_eq_nil_iff]
  intro x hx
  exact h x (List.dropWhile_sublist pIsSpace |>.subset (List.mem_reverse.mp hx))

theorem excludedDomainsOf_eq_nil {es : List Char} (h : stripChars es = []) :
    excludedDomainsOf es = [] := by
  unfold excludedDomainsOf
  rw [List.map_eq_nil_iff, List.filter_eq_nil_iff]
  intro d hd
  rcases List.mem_map.mp hd with ⟨p, hp, hpd⟩
  subst hpd
  simp only [ne_eq, decide_not, Bool.not_eq_true', decide_eq_false_iff_not, not_not]
  exact stripChars_eq_nil_of_all_space
    (fun c hc => all_space_of_stripChars_eq_nil h c (mem_of_mem_splitChars hp hc))

theorem filterLoop_eq_filter (ds : List (List Char)) :
    ∀ rs : List Resource, filterLoop ds rs =
      rs.filter (fun r => !(ds.any (fun d => isSub d (lowerChars r.url))))
  | [] => rfl
  | r :: rest => by
    simp only [filterLoop, List.filter_cons]
    cases h : ds.any (fun d => isSub d (lowerChars r.url)) <;>
      simp [h, filterLoop_eq_filter ds rest]

theorem mem_of_mem_filter_excluded {r : Resource} {rs : List Resource}
    {es : List Char} (h : r ∈ filter_excluded_domains rs es) : r ∈ rs := by
  simp only [filter_excluded_domains] at h
  split at h
  · exact h
  · rw [filterLoop_eq_filter] at h
    exact (List.mem_filter.mp h).1

theorem mem_buildNumbered_no_error {content : List Char} {r : Resource} :
    ∀ {ms : List (Nat × (List Char × Option (List Char)) × Nat)},
      r ∈ buildNumbered content ms →
      contains_error r.url r.title r.description = false
  | [], h => by simp [buildNumbered] at h
  | (i, (title0, oty), epos) :: rest, h => by
    simp only [buildNumbered] at h
    split at h
    · next hc =>
      rcases List.mem_cons.mp h with he | ht
      · subst he; exact hc.2
      · exact mem_buildNumbered_no_error ht
    · exact mem_buildNumbered_no_error h

theorem mem_buildLinkSections_no_error {content : List Char} {r : Resource} :
    ∀ {ms : List (Nat × (List Char × List Char) × Nat)},
      r ∈ buildLinkSections content ms →
      contains_error r.url r.title r.description = false
  | [], h => by simp [buildLinkSections] at h
  | (spos, (t0, u0), epos) :: rest, h => by
    simp only [buildLinkSections] at h
    split at h
    · exact mem_buildLinkSections_no_error h
    · split at h
      · next hc =>
        rcases List.mem_cons.mp h with he | ht
        · subst he; exact hc
        · exact mem_buildLinkSections_no_error ht
      · exact mem_buildLinkSections_no_error h

theorem contains_error_all_links_stored {url : List Char} {title : Option (List Char)}
    (h : contains_error url (title.getD []) (some []) = false) :
    contains_error url (allLinksTitle title url) none = false := by
  rcases title with _ | t
  · show contains_error url url none = false
    simp only [contains_error, List.any_cons, List.any_nil, Bool.or_eq_false_iff,
      Option.getD_none, Option.getD_some] at h ⊢
    exact ⟨h.1, h.1, h.2.2⟩
  · show contains_error url (if t ≠ [] then t else url) none = false
    simp only [contains_error, List.any_cons, List.any_nil, Bool.or_eq_false_iff,
      Option.getD_none, Option.getD_some] at h ⊢
    by_cases ht : t ≠ []
    · rw [if_pos ht]
      exact h
    · rw [if_neg ht]
      exact ⟨h.1, h.1, h.2.2⟩

theorem mem_buildAllLinks_no_error {content : List Char} {r : Resource} :
    ∀ {urls : List (List Char)}, r ∈ buildAllLinks content urls →
      contains_error r.url r.title r.description = false
  | [], h => by simp [buildAllLinks] at h
  | url :: rest, h => by
    simp only [buildAllLinks] at h
    split at h
    · next hc =>
      rcases List.mem_cons.mp h with he | ht
      · subst he
        exact contains_error_all_links_stored hc
      · exact mem_buildAllLinks_no_error ht
    · exact mem_buildAllLinks_no_error h

/-! ## Claim C2 (confirmed): strict strategy order, first non-empty wins -/

/-- C2: the numbered-resource strategy's result is the output whenever it is
non-empty; the link-section strategy is consulted only when it is empty, and
the bare-link strategy only when both prior strategies yield nothing. -/
theorem parser_strategy_order (content : List Char) :
    (parse_numbered_resources content ≠ [] →
      (parse_markdown_to_resources content none).resources =
        parse_numbered_resources content)
    ∧ (parse_numbered_resources content = [] → parse_link_sections content ≠ [] →
      (parse_markdown_to_resources content none).resources =
        parse_link_sections content)
    ∧ (parse_numbered_resources content = [] → parse_link_sections content = [] →
      (parse_markdown_to_resources content none).resources =
        parse_all_links content) := by
  refine ⟨fun h1 => ?_, fun h1 h2 => ?_, fun h1 h2 => ?_⟩
  · simp [parse_markdown_to_resources, h1]
  · simp [parse_markdown_to_resources, h1, h2]
  · simp [parse_markdown_to_resources, h1, h2]

theorem parser_strategy_order_witness :
    parse_numbered_resources c2Content ≠ [] ∧
    (parse_markdown_to_resources c2Content none).resources =
      parse_numbered_resources c2Content :=
  ⟨by decide, (parser_strategy_order c2Content).1 (by decide)⟩

/-! ## Claim C3 (confirmed): error-marker exclusion invariant -/

/-- C3: no resource whose url, title, or description contains a failure
phrase appears in any strategy's output or in the parser's final output. -/
theorem parser_error_exclusion (content : List Char)
    (excluded_sites : Option (List Char)) (r : Resource) :
    (r ∈ parse_numbered_resources content →
      contains_error r.url r.title r.description = false)
    ∧ (r ∈ parse_link_sections content →
      contains_error r.url r.title r.description = false)
    ∧ (r ∈ parse_all_links content →
      contains_error r.url r.title r.description = false)
    ∧ (r ∈ (parse_markdown_to_resources content excluded_sites).resources →
      contains_error r.url r.title r.description = false) := by
  have unfilter : ∀ {l : List Resource}, r ∈ (match excluded_sites with
      | some es => if stripChars es ≠ [] then filter_excluded_domains l es else l
      | none => l) → r ∈ l := by
    intro l h
    split at h
    · split at h
      · exact mem_of_mem_filter_excluded h
      · exact h
    · exact h
  refine ⟨fun h => mem_buildNumbered_no_error h,
    fun h => mem_buildLinkSections_no_error h,
    fun h => mem_buildAllLinks_no_error h,
    fun h => ?_⟩
  simp only [parse_markdown_to_resources] at h
  by_cases h1 : parse_numbered_resources content ≠ []
  · rw [if_pos h1, if_pos h1] at h
    exact mem_buildNumbered_no_error (unfilter h)
  · rw [if_neg h1] at h
    by_cases h2 : parse_link_sections content ≠ []
    · rw [if_pos h2] at h
      exact mem_buildLinkSections_no_error (unfilter h)
    · rw [if_neg h2] at h
      exact mem_buildAllLinks_no_error (unfilter h)

theorem parser_error_exclusion_witness :
    contains_error c3Resource.url c3Resource.title c3Resource.description = false :=
  (parser_error_exclusion c2Content none c3Resource).2.2.2 (by decide)

/-! ## Claim C8 (confirmed): DomainFilter behavior -/

/-- C8: an empty or whitespace-only excluded string leaves the list unchanged;
otherwise exactly the resources whose lowercased URL contains one of the
trimmed, lowercased, non-empty comma-separated entries as a substring are
removed, and the order of the remaining resources is preserved. -/
theorem domain_filter_spec (resources : List Resource) (excluded_sites : List Char) :
    (stripChars excluded_sites = [] →
      filter_excluded_domains resources excluded_sites = resources)
    ∧ (stripChars excluded_sites ≠ [] →
      filter_excluded_domains resources excluded_sites =
        resources.filter (fun r =>
          !((excludedDomainsOf excluded_sites).any
            (fun d => isSub d (lowerChars r.url))))) := by
  constructor
  · intro h
    simp [filter_excluded_domains, excludedDomainsOf_eq_nil h]
  · intro _
    simp only [filter_excluded_domains]
    by_cases hd : excludedDomainsOf excluded_sites = []
    · simp [hd, List.filter_true]
    · simp [hd, filterLoop_eq_filter]

theorem domain_filter_spec_witness :
    stripChars (sl "mit") ≠ []
    ∧ filter_excluded_domains c8Resources (sl "mit") =
      c8Resources.filter (fun r =>
        !((excludedDomainsOf (sl "mit")).any (fun d => isSub d (lowerChars r.url))))
    ∧ filter_excluded_domains c8Resources (sl "mit") =
      [{ type := sl "Course", title := sl "B", source := sl "Stanford",
         url := sl "https://stanford.edu/y", description := none }]
    ∧ filter_excluded_domains c8Resources (sl " ") = c8Resources :=
  ⟨by decide, (domain_filter_spec c8Resources (sl "mit")).2 (by decide),
   by decide, (domain_filter_spec c8Resources (sl " ")).1 (by decide)⟩

/-! ## Claim C9 (confirmed): error phrases in `source` alone do not reject -/

/-- C9: a markdown input whose numbered resource carries `"ERROR:"` only in
its source field still yields that resource in the parser's output. -/
theorem source_error_retained :
    (parse_markdown_to_resources c9Content none).resources = [c9Resource]
    ∧ isSub (lowerChars (sl "ERROR:")) (lowerChars c9Resource.source) = true
    ∧ contains_error c9Resource.url c9Resource.title c9Resource.description = false :=
  ⟨by decide, by decide, by decide⟩

/-! ## Claim C10 (confirmed): textbook info is independent of exclusions -/

/-- C10: the `textbook_info` component of the parse result does not depend on
the excluded-sites argument — domain filtering touches only the resources
list, while textbook extraction reads the full original text. -/
theorem textbook_info_independent_of_exclusions (content : List Char)
    (excluded_sites : Option (List Char)) :
    (parse_markdown_to_resources content excluded_sites).textbook_info =
      (parse_markdown_to_resources content none).textbook_info := rfl

end ScholarSource
